import Mathlib

/-!
Verification of the go-meta ERN indexing pipeline and migration engine.

The development shallowly embeds the `ern` package indexer (`Index`,
`indexERN`, `indexMessageHeader`, `indexResourceList`, `indexSoundRecording`,
`indexReleaseList`, `indexRelease`, `insertParty`, `insertParties`,
`DecodeObj`, `isUniqueErr`) and the `migrate` package (`Migrations.Run`).
Collaborators that are not part of the repository sources (the `meta` package
graph engine, object store, `Index.Update` transaction wrapper, and the
third-party migrate library) are modelled from the design document and marked
as such in their doc comments.
-/

namespace ern

/-- A content identifier, used as text (Go passes `cid.String()` to SQL). -/
abbrev Cid := String

/-- A decoded META object field value: a scalar string, a link to another
object (`*cid.Cid` / `*format.Link` in Go), an ordered sequence, or a nested
mapping. -/
inductive Value where
  | str (s : String)
  | link (c : Cid)
  | seq (xs : List Value)
  | map (fields : List (String × Value))

/-- An immutable content-addressed object: its identifier and its fields. -/
structure Object where
  cid : Cid
  fields : List (String × Value)

/-- The object store: a finite association of content identifiers to decoded
objects.  A missing entry models a store failure / not-found. -/
abbrev Store := List (Cid × Object)

/-- Errors produced by the pipeline.  Go uses untyped `error` values; the
constructors keep exactly the distinctions the code relies on:
`meta.IsPathNotFound`, `isUniqueErr` (SQLite uniqueness), and `ctx.Err()`
(cancellation).  `decodeWrap` models the `fmt.Errorf` wrapping performed by
`DecodeObj`'s deferred handler.  `assertFailed` models the runtime panic of
an unchecked Go type assertion (`v.(string)`). -/
inductive Err where
  | pathNotFound (field : String)
  | typeMismatch (msg : String)
  | storeErr (c : Cid)
  | schemaErr (msg : String)
  | cardinalityErr (who : String) (n : Nat)
  | uniqueErr
  | decodeWrap (path : List String) (e : Err)
  | cancelled
  | assertFailed (msg : String)
deriving DecidableEq, Repr

/-- `meta.IsPathNotFound`: recognizes the distinguished path-not-found
traversal error (wrapped errors are new `fmt.Errorf` values and are not
recognized, matching the Go behaviour). -/
def IsPathNotFound : Err → Bool
  | .pathNotFound _ => true
  | _ => false

/-- Single-level field lookup inside a field list. -/
def lookupField : List (String × Value) → String → Option Value
  | [], _ => none
  | (k, v) :: rest, f => if k == f then some v else lookupField rest f

/-- Modelled from the spec: the object store collaborator's
`Get(id) -> (Object, error)` (section 6); a missing entry is a store
failure. -/
def Store.get (s : Store) (c : Cid) : Option Object :=
  match s with
  | [] => none
  | (k, o) :: rest => if k == c then some o else Store.get rest c

/-- Modelled from the spec: the object's own `Get(field) -> (value, error)`
(section 6): single-level field lookup without dereferencing links; an absent
field is a not-found error. -/
def Object.get (o : Object) (f : String) : Except Err Value :=
  match lookupField o.fields f with
  | some v => .ok v
  | none => .error (.pathNotFound f)

/-- Modelled from the spec: the graph traversal engine `Get(path...)`
(section 4.1).  At each step the current value is dereferenced through the
store if it is a link (a store miss aborts with a store error), then the next
field name is resolved (an absent field aborts with `pathNotFound`); the final
value, possibly still a link, is returned. -/
def Graph.getV (store : Store) : List String → Value → Except Err Value
  | [], v => .ok v
  | f :: rest, .link c =>
    match Store.get store c with
    | none => .error (.storeErr c)
    | some o =>
      match lookupField o.fields f with
      | none => .error (.pathNotFound f)
      | some v => Graph.getV store rest v
  | f :: rest, .map fields =>
    match lookupField fields f with
    | none => .error (.pathNotFound f)
    | some v => Graph.getV store rest v
  | _ :: _, _ => .error (.typeMismatch "cannot resolve a field on a scalar or sequence value")

/-- `meta.NewGraph(store, obj)` followed by `graph.Get(path...)`: traversal
starting from the bound root object's fields. -/
def Graph.get (store : Store) (root : Object) (path : List String) : Except Err Value :=
  Graph.getV store path (.map root.fields)

/-- Modelled from the spec: `meta.Object.Decode` into the
`struct { Value string `json:"@value"` }` shape used throughout the indexer:
JSON unmarshalling leaves the field at its zero value (empty string) when
`@value` is absent and fails when it holds a non-string. -/
def decodeAtValue (o : Object) : Except Err String :=
  match lookupField o.fields "@value" with
  | none => .ok ""
  | some (.str s) => .ok s
  | some _ => .error (.typeMismatch "cannot unmarshal value into Go string")

/-- `DecodeObj` (ern package): resolve `path` through the graph, require the
result to be a link, dereference it and decode the target's `@value`.  The
deferred handler wraps every error. -/
def DecodeObj (store : Store) (obj : Object) (path : List String) : Except Err String :=
  match Graph.get store obj path with
  | .error e => .error (.decodeWrap path e)
  | .ok (.link id) =>
    match Store.get store id with
    | none => .error (.decodeWrap path (.storeErr id))
    | some o =>
      match decodeAtValue o with
      | .error e => .error (.decodeWrap path e)
      | .ok s => .ok s
  | .ok _ => .error (.decodeWrap path (.typeMismatch "expected path to resolve to a cid"))

/-- A row of the `party`, `sound_recording` or `release` table:
`(cid, id, title-or-name)`. -/
structure EntityRow where
  cid : String
  id : String
  title : String
deriving DecidableEq, Repr

/-- A row of the `ern` table. -/
structure ErnRow where
  cid : String
  messageId : String
  threadId : String
  senderId : String
  recipientId : String
  created : String
deriving DecidableEq, Repr

/-- A row of the `resource_list` or `release_list` association table. -/
structure AssocRow where
  ernId : String
  childId : String
deriving DecidableEq, Repr

/-- The relational database visible to the ERN indexer. -/
structure DB where
  party : List EntityRow
  sound_recording : List EntityRow
  release : List EntityRow
  ern : List ErnRow
  resource_list : List AssocRow
  release_list : List AssocRow
deriving DecidableEq, Repr

def DB.empty : DB := ⟨[], [], [], [], [], []⟩

/-- Modelled from the spec: the ERN schema migrations are not among the
sources; per sections 3 and 6 entity tables are keyed (uniquely) by content
identifier.  A key collision raises the SQLite uniqueness-constraint error
and leaves the table unchanged. -/
def DB.insertPartyRow (db : DB) (r : EntityRow) : Except Err DB :=
  if db.party.any (fun x => x.cid == r.cid) then .error .uniqueErr
  else .ok { db with party := db.party ++ [r] }

/-- Modelled from the spec: `sound_recording` is keyed uniquely by cid. -/
def DB.insertSoundRecordingRow (db : DB) (r : EntityRow) : Except Err DB :=
  if db.sound_recording.any (fun x => x.cid == r.cid) then .error .uniqueErr
  else .ok { db with sound_recording := db.sound_recording ++ [r] }

/-- Modelled from the spec: `release` is keyed uniquely by cid. -/
def DB.insertReleaseRow (db : DB) (r : EntityRow) : Except Err DB :=
  if db.release.any (fun x => x.cid == r.cid) then .error .uniqueErr
  else .ok { db with release := db.release ++ [r] }

/-- Modelled from the spec: `ern` is keyed uniquely by cid. -/
def DB.insertErnRow (db : DB) (r : ErnRow) : Except Err DB :=
  if db.ern.any (fun x => x.cid == r.cid) then .error .uniqueErr
  else .ok { db with ern := db.ern ++ [r] }

/-- Modelled from the spec: association tables are keyed by the pair of
content identifiers (section 3). -/
def DB.insertResourceListRow (db : DB) (r : AssocRow) : Except Err DB :=
  if db.resource_list.any (fun x => x.ernId == r.ernId && x.childId == r.childId) then
    .error .uniqueErr
  else .ok { db with resource_list := db.resource_list ++ [r] }

/-- Modelled from the spec: association tables are keyed by the pair of
content identifiers (section 3). -/
def DB.insertReleaseListRow (db : DB) (r : AssocRow) : Except Err DB :=
  if db.release_list.any (fun x => x.ernId == r.ernId && x.childId == r.childId) then
    .error .uniqueErr
  else .ok { db with release_list := db.release_list ++ [r] }

/-- `isUniqueErr`: whether an error is the SQLite3 uniqueness-constraint
error. -/
def isUniqueErr : Err → Bool
  | .uniqueErr => true
  | _ => false

/-- `insertParty`: decode `PartyId` (its error explicitly ignored — it is ok
for the PartyId to be missing, leaving the zero value) and
`PartyName/FullName` (required), insert into the `party` table, swallowing a
uniqueness error. -/
def insertParty (store : Store) (tx : DB) (obj : Object) : Except Err DB :=
  let partyID :=
    match DecodeObj store obj ["PartyId"] with
    | .ok s => s
    | .error _ => ""
  match DecodeObj store obj ["PartyName", "FullName"] with
  | .error e => .error e
  | .ok partyName =>
    match tx.insertPartyRow ⟨obj.cid, partyID, partyName⟩ with
    | .ok tx1 => .ok tx1
    | .error e => if isUniqueErr e then .ok tx else .error e

/-- The single-link / link-sequence `switch` shared verbatim (up to the error
message) by `insertParties`, `indexResourceList`, `indexSoundRecording` and
`indexReleaseList`: a lone link becomes a one-element slice, a sequence is
checked element by element, and — the Go switch having no default case — any
other shape leaves the slice nil.  In Go the error also reports the offending
element's dynamic type; the embedding keeps only the caller's message.
`collectLinks` is the sequence case's element loop. -/
def collectLinks (msg : String) : List Value → Except Err (List Cid)
  | [] => .ok []
  | .link c :: rest =>
    match collectLinks msg rest with
    | .ok cs => .ok (c :: cs)
    | .error e => .error e
  | _ :: _ => .error (.schemaErr msg)

/-- The lone-link and sequence cases of the shared switch. -/
def normalizeLinks (msg : String) : Value → Except Err (List Cid)
  | .link c => .ok [c]
  | .seq xs => collectLinks msg xs
  | _ => .ok []

/-- The body of `insertParties`' second loop: load each party from the store
and insert it. -/
def insertPartyLoop (store : Store) : DB → List Cid → Except Err DB
  | tx, [] => .ok tx
  | tx, id :: rest =>
    match Store.get store id with
    | none => .error (.storeErr id)
    | some party =>
      match insertParty store tx party with
      | .error e => .error e
      | .ok tx1 => insertPartyLoop store tx1 rest

/-- `insertParties`: load parties from the given field (normalizing the
single-link / link-sequence polymorphism) and insert each into the `party`
table, returning the ordered identifiers. -/
def insertParties (store : Store) (tx : DB) (obj : Object) (field : String) :
    Except Err (List Cid × DB) :=
  match obj.get field with
  | .error e => .error e
  | .ok v =>
    match normalizeLinks "invalid party type" v with
    | .error e => .error e
    | .ok ids =>
      match insertPartyLoop store tx ids with
      | .error e => .error e
      | .ok tx1 => .ok (ids, tx1)

/-- `indexMessageHeader`: insert the sender and recipient parties, enforce
the exactly-one cardinality on each, decode `MessageId`, `MessageThreadId`
and `MessageCreatedDateTime`, and insert the `ern` row (whose insert error —
uniqueness included — is returned as-is). -/
def indexMessageHeader (store : Store) (tx : DB) (ernID : Cid) (obj : Object) :
    Except Err DB :=
  match insertParties store tx obj "MessageSender" with
  | .error e => .error e
  | .ok (senders, tx1) =>
    match senders with
    | [sender] =>
      match insertParties store tx1 obj "MessageRecipient" with
      | .error e => .error e
      | .ok (recipients, tx2) =>
        match recipients with
        | [recipient] =>
          match DecodeObj store obj ["MessageId"] with
          | .error e => .error e
          | .ok messageID =>
            match DecodeObj store obj ["MessageThreadId"] with
            | .error e => .error e
            | .ok threadID =>
              match DecodeObj store obj ["MessageCreatedDateTime"] with
              | .error e => .error e
              | .ok created =>
                tx2.insertErnRow ⟨ernID, messageID, threadID, sender, recipient, created⟩
        | _ => .error (.cardinalityErr "recipient" recipients.length)
    | _ => .error (.cardinalityErr "sender" senders.length)

/-- `indexWorkList` is a stub in the source (TODO: index MusicalWorks). -/
def indexWorkList (_ : Store) (tx : DB) (_ : Cid) (_ : Object) : Except Err DB :=
  .ok tx

/-- The DisplayArtist loop of `indexSoundRecording`: load each
territory-details object and insert its `DisplayArtist` parties. -/
def displayArtistLoop (store : Store) : DB → List Cid → Except Err DB
  | tx, [] => .ok tx
  | tx, c :: rest =>
    match Store.get store c with
    | none => .error (.storeErr c)
    | some o =>
      match insertParties store tx o "DisplayArtist" with
      | .error e => .error e
      | .ok (_, tx1) => displayArtistLoop store tx1 rest

/-- `indexSoundRecording`: *attempt* to load the ISRC — Go ignores any error
here, not just path-not-found, and keeps the empty string; on success it does
an unchecked `v.(string)` assertion (surfaced here as `assertFailed`).  Then
index the DisplayArtists of each `SoundRecordingDetailsByTerritory`, load the
required `ReferenceTitle` (path-not-found tolerated, but an empty title is an
error), and insert the `sound_recording` row and the `resource_list`
association row — neither insert swallows a uniqueness error. -/
def indexSoundRecording (store : Store) (tx : DB) (ernID : Cid) (obj : Object) :
    Except Err DB :=
  let isrcE : Except Err String :=
    match Graph.get store obj ["SoundRecordingId", "ISRC", "@value"] with
    | .ok (.str s) => .ok s
    | .ok _ => .error (.assertFailed "interface conversion to string")
    | .error _ => .ok ""
  match isrcE with
  | .error e => .error e
  | .ok isrc =>
    match obj.get "SoundRecordingDetailsByTerritory" with
    | .error e => .error e
    | .ok srCid =>
      match normalizeLinks "invalid resource type" srCid with
      | .error e => .error e
      | .ok cids =>
        match displayArtistLoop store tx cids with
        | .error e => .error e
        | .ok tx1 =>
          let titleE : Except Err String :=
            match Graph.get store obj ["ReferenceTitle", "TitleText", "@value"] with
            | .ok (.str s) => .ok s
            | .ok _ => .error (.assertFailed "interface conversion to string")
            | .error e => if IsPathNotFound e then .ok "" else .error e
          match titleE with
          | .error e => .error e
          | .ok title =>
            if title == "" then .error (.schemaErr "SoundRecording missing ReferenceTitle")
            else
              match tx1.insertSoundRecordingRow ⟨obj.cid, isrc, title⟩ with
              | .error e => .error e
              | .ok tx2 =>
                match tx2.insertResourceListRow ⟨ernID, obj.cid⟩ with
                | .error e => .error e
                | .ok tx3 => .ok tx3

/-- The per-link loop of `indexResourceList`. -/
def soundRecordingLoop (store : Store) (ernID : Cid) : DB → List Cid → Except Err DB
  | tx, [] => .ok tx
  | tx, c :: rest =>
    match Store.get store c with
    | none => .error (.storeErr c)
    | some o =>
      match indexSoundRecording store tx ernID o with
      | .error e => .error e
      | .ok tx1 => soundRecordingLoop store ernID tx1 rest

/-- `indexResourceList`: the `SoundRecording` property is either a single
link or an array of links; load and index each one. -/
def indexResourceList (store : Store) (tx : DB) (ernID : Cid) (obj : Object) :
    Except Err DB :=
  match obj.get "SoundRecording" with
  | .error e => .error e
  | .ok v =>
    match normalizeLinks "invalid resource type" v with
    | .error e => .error e
    | .ok cids => soundRecordingLoop store ernID tx cids

/-- `indexRelease`: *attempt* to load the GRid (any error ignored, empty
string kept, unchecked string assertion on success), load the required
`ReferenceTitle` (path-not-found tolerated, empty title is an error), and
insert the `release` row and `release_list` association row — neither insert
swallows a uniqueness error. -/
def indexRelease (store : Store) (tx : DB) (ernID : Cid) (metaObj : Object) :
    Except Err DB :=
  let grIdE : Except Err String :=
    match Graph.get store metaObj ["ReleaseId", "GRid", "@value"] with
    | .ok (.str s) => .ok s
    | .ok _ => .error (.assertFailed "interface conversion to string")
    | .error _ => .ok ""
  match grIdE with
  | .error e => .error e
  | .ok grId =>
    let titleE : Except Err String :=
      match Graph.get store metaObj ["ReferenceTitle", "TitleText", "@value"] with
      | .ok (.str s) => .ok s
      | .ok _ => .error (.assertFailed "interface conversion to string")
      | .error e => if IsPathNotFound e then .ok "" else .error e
    match titleE with
    | .error e => .error e
    | .ok title =>
      if title == "" then .error (.schemaErr "Release missing ReferenceTitle")
      else
        match tx.insertReleaseRow ⟨metaObj.cid, grId, title⟩ with
        | .error e => .error e
        | .ok tx1 => tx1.insertReleaseListRow ⟨ernID, metaObj.cid⟩

/-- The per-link loop of `indexReleaseList`. -/
def releaseLoop (store : Store) (ernID : Cid) : DB → List Cid → Except Err DB
  | tx, [] => .ok tx
  | tx, c :: rest =>
    match Store.get store c with
    | none => .error (.storeErr c)
    | some o =>
      match indexRelease store tx ernID o with
      | .error e => .error e
      | .ok tx1 => releaseLoop store ernID tx1 rest

/-- `indexReleaseList`: the `Release` property is either a single link or an
array of links; load and index each one. -/
def indexReleaseList (store : Store) (tx : DB) (ernID : Cid) (metaObj : Object) :
    Except Err DB :=
  match metaObj.get "Release" with
  | .error e => .error e
  | .ok rls =>
    match normalizeLinks "Invalid release type" rls with
    | .error e => .error e
    | .ok cids => releaseLoop store ernID tx cids

/-- The section dispatch of `indexERN`'s map literal: which per-section
indexing function handles which top-level field. -/
def sectionFn (store : Store) : String → DB → Cid → Object → Except Err DB
  | "MessageHeader" => indexMessageHeader store
  | "WorkList" => indexWorkList store
  | "ResourceList" => indexResourceList store
  | "ReleaseList" => indexReleaseList store
  | _ => fun tx _ _ => .ok tx

/-- `indexProperty`: dereference the section's cid through the store and
apply the per-section indexing function. -/
def indexProperty (store : Store) (tx : DB) (ernID : Cid) (c : Cid)
    (indexFn : DB → Cid → Object → Except Err DB) : Except Err DB :=
  match Store.get store c with
  | none => .error (.storeErr c)
  | some obj => indexFn tx ernID obj

/-- One iteration of `indexERN`'s loop: resolve
`NewReleaseMessage.<field>`; a path-not-found means the section is absent and
is skipped; any other traversal error aborts; the resolved value must be a
cid. -/
def indexSection (store : Store) (tx : DB) (ernObj : Object) (field : String) :
    Except Err DB :=
  match Graph.get store ernObj ["NewReleaseMessage", field] with
  | .error e => if IsPathNotFound e then .ok tx else .error e
  | .ok v =>
    match v with
    | .link id => indexProperty store tx ernObj.cid id (sectionFn store field)
    | _ => .error (.schemaErr "unexpected field type")

/-- The four top-level sections of `indexERN`'s map literal.  Go iterates the
map in unspecified order; the embedding fixes the source listing order. -/
def sectionFields : List String :=
  ["MessageHeader", "WorkList", "ResourceList", "ReleaseList"]

/-- `indexERN`'s loop over a list of section fields. -/
def indexSections (store : Store) (ernObj : Object) : DB → List String → Except Err DB
  | tx, [] => .ok tx
  | tx, f :: rest =>
    match indexSection store tx ernObj f with
    | .error e => .error e
    | .ok tx1 => indexSections store ernObj tx1 rest

/-- `indexERN`: index a DDEX ERN based on its MessageHeader, WorkList,
ResourceList and ReleaseList sections. -/
def indexERN (store : Store) (tx : DB) (ernObj : Object) : Except Err DB :=
  indexSections store ernObj tx sectionFields

/-- One outcome of the `select` inside `Index`'s loop: a cid delivered on
`stream.Ch()`, the channel closing (carrying `stream.Err()`, `none` on clean
exhaustion), or `ctx.Done()` firing. -/
inductive StreamEvent where
  | recv (c : Cid)
  | closed (err : Option Err)
  | ctxDone
deriving DecidableEq, Repr

/-- The consumption loop of `Index`, modelled over an explicit schedule of
select outcomes.  A `recv` dereferences the cid through the store (a failure
aborts) and hands the object to `indexERN`; `closed` returns the stream's
terminal error; `ctxDone` returns `ctx.Err()` (cancellation).  Everything
after a terminal event is never dequeued.  An exhausted schedule (where the
Go loop would block forever) is treated as a clean close. -/
def indexLoop (store : Store) : DB → List StreamEvent → Except Err DB
  | tx, [] => .ok tx
  | tx, .recv c :: rest =>
    match Store.get store c with
    | none => .error (.storeErr c)
    | some obj =>
      match indexERN store tx obj with
      | .error e => .error e
      | .ok tx1 => indexLoop store tx1 rest
  | tx, .closed none :: _ => .ok tx
  | _, .closed (some e) :: _ => .error e
  | _, .ctxDone :: _ => .error .cancelled

/-- Modelled from the spec: `meta.Index.Update` is not among the sources; per
the transaction-as-closure pattern (section 9) it opens a transaction, runs
the closure, commits when it returns nil and rolls back otherwise.  Returns
the call's error together with the database visible afterwards. -/
def Update (db : DB) (f : DB → Except Err DB) : Option Err × DB :=
  match f db with
  | .ok tx => (none, tx)
  | .error e => (some e, db)

/-- `Index`: consume a stream of META object links expected to point at DDEX
ERNs, inside one database transaction. -/
def Index (store : Store) (db : DB) (events : List StreamEvent) : Option Err × DB :=
  Update db (fun tx => indexLoop store tx events)

end ern

namespace migrate

/-- A single migration: its version and its SQL body (`source.Migration`'s
`Version` and `Identifier` fields; the direction is always `Up`). -/
structure Migration where
  version : Nat
  identifier : String
deriving DecidableEq, Repr

/-- `Migrations`: a set of SQLite3 database migrations. -/
structure Migrations where
  migrations : List Migration
deriving DecidableEq, Repr

/-- `NewMigrations` returns a new (empty) set of migrations. -/
def NewMigrations : Migrations := ⟨[]⟩

/-- `Add` appends a migration; `source.Migrations.Append` refuses a duplicate
version, upon which the Go code panics — modelled as `none`. -/
def Migrations.Add (m : Migrations) (version : Nat) (sql : String) : Option Migrations :=
  if m.migrations.any (fun mg => mg.version == version) then none
  else some ⟨m.migrations ++ [⟨version, sql⟩]⟩

/-- The relational store as the migration engine sees it: the store-native
version metadata (0 = empty schema) and the schema statements applied so far,
in order. -/
structure MigDB where
  version : Nat
  applied : List Migration
deriving DecidableEq, Repr

/-- Version order on migrations. -/
def migLE (a b : Migration) : Prop := a.version ≤ b.version

instance : DecidableRel migLE := fun a b => Nat.decLe a.version b.version

instance : IsTotal Migration migLE := ⟨fun a b => Nat.le_total a.version b.version⟩

instance : IsTrans Migration migLE := ⟨fun _ _ _ => Nat.le_trans⟩

/-- The migrations pending at version `v`: those with a strictly higher
version, in ascending version order. -/
def Migrations.pending (m : Migrations) (v : Nat) : List Migration :=
  (m.migrations.filter (fun mg => v < mg.version)).insertionSort migLE

/-- Applying one migration: run its body and advance the version metadata. -/
def MigDB.applyOne (d : MigDB) (mg : Migration) : MigDB :=
  ⟨mg.version, d.applied ++ [mg]⟩

/-- Errors of the third-party migrate library's `Up`, as far as `Run`
distinguishes them: the `ErrNoChange` sentinel versus anything else. -/
inductive MigErr where
  | noChange
  | upFailed (msg : String)
deriving DecidableEq, Repr

/-- Modelled from the spec: the third-party `migrate.Up` (section 4.3)
computes the currently applied version from store-native metadata, applies
every migration with a strictly higher version in ascending order and reports
`ErrNoChange` when none is pending; each body is assumed individually
valid. -/
def Migrations.up (m : Migrations) (db : MigDB) : Except MigErr MigDB :=
  let pend := m.pending db.version
  if pend.isEmpty then .error .noChange
  else .ok (pend.foldl MigDB.applyOne db)

/-- `Run` runs the set of migrations on the given database, swallowing the
no-change sentinel (`err != nil && err != migrate.ErrNoChange`). -/
def Migrations.Run (m : Migrations) (db : MigDB) : Option MigErr × MigDB :=
  match m.up db with
  | .ok db1 => (none, db1)
  | .error e => if e == .noChange then (none, db) else (some e, db)

/-- The migration set of the musicbrainz indexer, registered at process
startup. -/
def m10 : Migrations := ⟨[⟨1, "CREATE TABLE artist"⟩, ⟨2, "CREATE INDEX artist_idx"⟩]⟩

/-- A database already migrated to the highest version of `m10`. -/
def db10 : MigDB := ⟨2, [⟨1, "CREATE TABLE artist"⟩, ⟨2, "CREATE INDEX artist_idx"⟩]⟩

end migrate

namespace ern

/-! Concrete fixtures: a minimal ERN document graph holding one ResourceList
with one SoundRecording, used to exercise the pipeline on closed inputs. -/

/-- A store holding a document whose only present section is a ResourceList
with a single SoundRecording titled SongA. -/
def storeA : Store :=
  [ ("docA", ⟨"docA", [("NewReleaseMessage", .link "nrmA")]⟩),
    ("nrmA", ⟨"nrmA", [("ResourceList", .link "rlA")]⟩),
    ("rlA", ⟨"rlA", [("SoundRecording", .link "srA")]⟩),
    ("srA", ⟨"srA", [("SoundRecordingDetailsByTerritory", .seq []),
                     ("ReferenceTitle", .link "rtA")]⟩),
    ("rtA", ⟨"rtA", [("TitleText", .link "ttA")]⟩),
    ("ttA", ⟨"ttA", [("@value", .str "SongA")]⟩) ]

/-- A one-document stream that closes cleanly. -/
def eventsA : List StreamEvent := [.recv "docA", .closed none]

/-- The database committed by one `Index` run over `eventsA`. -/
def dbA1 : DB := (Index storeA DB.empty eventsA).snd

/-- A store holding the referenced pieces of a party whose `PartyId` is
absent and whose `PartyName/FullName` decodes to Alice. -/
def storeP : Store :=
  [ ("pnP", ⟨"pnP", [("FullName", .link "fnP")]⟩),
    ("fnP", ⟨"fnP", [("@value", .str "Alice")]⟩) ]

/-- The party object: a `PartyName` link and no `PartyId`. -/
def objP : Object := ⟨"pP", [("PartyName", .link "pnP")]⟩

/-- A transaction state already holding a row keyed by the party's cid. -/
def txP : DB := { DB.empty with party := [⟨"pP", "X", "Old"⟩] }

/-- A store holding a linked `NewReleaseMessage` object with no sections. -/
def storeC3 : Store := [("nrmC", ⟨"nrmC", []⟩)]

/-- A document whose `NewReleaseMessage` has no sections at all. -/
def docC3 : Object := ⟨"docC", [("NewReleaseMessage", .link "nrmC")]⟩

/-- A message header whose sender and recipient sequences are both empty. -/
def objMH5 : Object :=
  ⟨"mh5", [("MessageSender", .seq []), ("MessageRecipient", .seq [])]⟩

/-- The sound recording of the C7 fixture: its `SoundRecordingId` links to an
identifier (`sridB`) that the store cannot resolve. -/
def objSrB : Object :=
  ⟨"srB", [("SoundRecordingId", .link "sridB"),
           ("SoundRecordingDetailsByTerritory", .seq []),
           ("ReferenceTitle", .link "rtB")]⟩

/-- A store whose document graph is complete except for the dangling
`sridB` reference inside the sound recording's identifier composite. -/
def storeB : Store :=
  [ ("docB", ⟨"docB", [("NewReleaseMessage", .link "nrmB")]⟩),
    ("nrmB", ⟨"nrmB", [("ResourceList", .link "rlB")]⟩),
    ("rlB", ⟨"rlB", [("SoundRecording", .link "srB")]⟩),
    ("srB", objSrB),
    ("rtB", ⟨"rtB", [("TitleText", .link "ttB")]⟩),
    ("ttB", ⟨"ttB", [("@value", .str "SongB")]⟩) ]

/-- A resource list whose `SoundRecording` field holds a scalar — neither a
link nor a sequence. -/
def objRlScalar : Object := ⟨"rl8", [("SoundRecording", .str "not-a-link")]⟩

/-! Helper lemmas shared by several claims. -/

/-- Processing a prefix of receive events successfully lets the loop continue
on the remaining schedule from the state the prefix produced. -/
theorem indexLoop_append_ok (store : Store) :
    ∀ (pre : List StreamEvent) (db tx1 : DB),
      (∀ ev ∈ pre, ∃ c, ev = .recv c) →
      indexLoop store db pre = .ok tx1 →
      ∀ evs, indexLoop store db (pre ++ evs) = indexLoop store tx1 evs := by
  intro pre
  induction pre with
  | nil =>
    intro db tx1 _ h evs
    simp only [indexLoop] at h
    cases h
    rfl
  | cons ev rest ih =>
    intro db tx1 hrecv h evs
    obtain ⟨c, rfl⟩ := hrecv ev (List.mem_cons_self ev rest)
    simp only [indexLoop, List.cons_append] at h ⊢
    cases hg : Store.get store c with
    | none => rw [hg] at h; simp at h
    | some obj =>
      rw [hg] at h
      simp only [] at h ⊢
      cases he : indexERN store db obj with
      | error e => rw [he] at h; simp at h
      | ok tx2 =>
        rw [he] at h
        exact ih tx2 tx1 (fun x hx => hrecv x (List.mem_cons_of_mem _ hx)) h evs

/-- Processing a successful prefix of section fields lets `indexSections`
continue on the remaining fields from the state the prefix produced. -/
theorem indexSections_append_ok (store : Store) (ernObj : Object) :
    ∀ (pre : List String) (tx tx1 : DB),
      indexSections store ernObj tx pre = .ok tx1 →
      ∀ l, indexSections store ernObj tx (pre ++ l) = indexSections store ernObj tx1 l := by
  intro pre
  induction pre with
  | nil =>
    intro tx tx1 h l
    simp only [indexSections] at h
    cases h
    rfl
  | cons f rest ih =>
    intro tx tx1 h l
    simp only [indexSections, List.cons_append] at h ⊢
    cases hs : indexSection store tx ernObj f with
    | error e => rw [hs] at h; simp at h
    | ok tx2 =>
      rw [hs] at h
      exact ih tx2 tx1 h l

/-- A sequence whose elements all are links collects exactly their cids, in
order. -/
theorem collectLinks_map_link (msg : String) :
    ∀ cs : List Cid, collectLinks msg (cs.map Value.link) = .ok cs := by
  intro cs
  induction cs with
  | nil => rfl
  | cons c rest ih => simp only [List.map_cons, collectLinks, ih]

/-- A sequence containing any non-link element collects to the caller's
schema-violation error. -/
theorem collectLinks_nonlink (msg : String) :
    ∀ (xs : List Value) (x : Value), x ∈ xs → (∀ c, x ≠ .link c) →
      collectLinks msg xs = .error (.schemaErr msg) := by
  intro xs
  induction xs with
  | nil => intro x hx; exact absurd hx (List.not_mem_nil x)
  | cons y rest ih =>
    intro x hx hnl
    rcases List.mem_cons.mp hx with rfl | hmem
    · cases x with
      | link c => exact absurd rfl (hnl c)
      | str s => rfl
      | seq l => rfl
      | map fs => rfl
    · cases y with
      | link c => simp only [collectLinks, ih x hmem hnl]
      | str s => rfl
      | seq l => rfl
      | map fs => rfl

/-! C1: idempotent re-indexing. -/

/-- C1 (counterexample): indexing the fixture stream once succeeds; running
`Index` over the very same stream a second time does NOT treat the existing
`sound_recording` key as already indexed — the uniqueness violation is
returned as the call's error instead of being swallowed. -/
theorem c1_counterexample_second_run_errors :
    (Index storeA DB.empty eventsA).fst = none
    ∧ Index storeA dbA1 eventsA = (some .uniqueErr, dbA1) := by
  constructor
  · rfl
  · rfl

/-- C1 (amended): only the `party` insert swallows the uniqueness-constraint
violation; the `sound_recording` (and sibling) inserts propagate it, so a
second run over a stream containing an already-indexed document returns a
uniqueness error — the committed row set stays unchanged only because the
second transaction rolls back. -/
theorem c1_amended_unique_swallowed_only_for_party :
    (∀ (store : Store) (tx : DB) (obj : Object) (nm : String),
      DecodeObj store obj ["PartyName", "FullName"] = .ok nm →
      tx.party.any (fun x => x.cid == obj.cid) = true →
      insertParty store tx obj = .ok tx)
    ∧ (∀ (store : Store) (tx : DB) (ernID : Cid) (obj : Object) (e : Err) (t : String),
      Graph.get store obj ["SoundRecordingId", "ISRC", "@value"] = .error e →
      obj.get "SoundRecordingDetailsByTerritory" = .ok (.seq []) →
      Graph.get store obj ["ReferenceTitle", "TitleText", "@value"] = .ok (.str t) →
      (t == "") = false →
      tx.sound_recording.any (fun x => x.cid == obj.cid) = true →
      indexSoundRecording store tx ernID obj = .error .uniqueErr)
    ∧ (∀ (store : Store) (db : DB) (events : List StreamEvent) (e : Err),
      (Index store db events).fst = some e → (Index store db events).snd = db) := by
  refine ⟨?_, ?_, ?_⟩
  · intro store tx obj nm hnm hdup
    simp only [insertParty, hnm, DB.insertPartyRow, hdup, if_true, isUniqueErr]
  · intro store tx ernID obj e t hisrc hsr htitle ht hdup
    simp only [indexSoundRecording, hisrc, hsr, htitle, ht, normalizeLinks, collectLinks,
      displayArtistLoop, IsPathNotFound, Bool.false_eq_true, if_false,
      DB.insertSoundRecordingRow, hdup, if_true]
  · intro store db events e h
    simp only [Index, Update] at h ⊢
    cases hl : indexLoop store db events with
    | ok tx => rw [hl] at h; simp at h
    | error e1 => simp

/-- C1 (amended, witness): the party fixture with an already-present row:
the insert is swallowed and the transaction state is unchanged. -/
theorem c1_amended_witness :
    insertParty storeP txP objP = .ok txP :=
  c1_amended_unique_swallowed_only_for_party.1 storeP txP objP "Alice" rfl rfl

/-! C2: the whole call is one transaction. -/

/-- C2: `Index` executes inside one transaction: if the call returns an error
— store failure, extraction error or cancellation, at any identifier — the
visible database afterwards is exactly the one before the call (all of the
batch's writes are rolled back, including those for identifiers processed
successfully earlier); if it returns no error, the visible database is the
one produced by processing the entire stream. -/
theorem c2_single_transaction :
    ∀ (store : Store) (db : DB) (events : List StreamEvent),
      ((Index store db events).fst ≠ none → (Index store db events).snd = db)
      ∧ ((Index store db events).fst = none →
          indexLoop store db events = .ok (Index store db events).snd) := by
  intro store db events
  simp only [Index, Update]
  cases h : indexLoop store db events with
  | ok tx => simp
  | error e => simp

/-- C2 (witness): a stream whose only identifier cannot be resolved leaves
the database untouched. -/
theorem c2_witness :
    (Index [] DB.empty [.recv "x", .closed none]).snd = DB.empty :=
  (c2_single_transaction [] DB.empty [.recv "x", .closed none]).1 (by decide)

/-! C9: cancellation and stream termination. -/

/-- C9: once the cancellation signal is the delivered event, the loop aborts
without dequeuing any of the identifiers still scheduled after it and the
call returns the context's cancellation error (with the transaction rolled
back); when instead the channel closes, the call returns the stream's
terminal error — committing when that error is nil (clean exhaustion).  The
cancellation error is distinct from every store and schema failure. -/
theorem c9_cancellation_and_termination :
    ∀ (store : Store) (db tx1 : DB) (pre post : List StreamEvent),
      (∀ ev ∈ pre, ∃ c, ev = .recv c) →
      indexLoop store db pre = .ok tx1 →
      Index store db (pre ++ .ctxDone :: post) = (some .cancelled, db)
      ∧ (∀ e, Index store db (pre ++ .closed (some e) :: post) = (some e, db))
      ∧ Index store db (pre ++ .closed none :: post) = (none, tx1)
      ∧ (∀ c, Err.cancelled ≠ .storeErr c) ∧ (∀ m, Err.cancelled ≠ .schemaErr m) := by
  intro store db tx1 pre post hrecv hpre
  have key := indexLoop_append_ok store pre db tx1 hrecv hpre
  refine ⟨?_, ?_, ?_, ?_, ?_⟩
  · simp only [Index, Update, key (StreamEvent.ctxDone :: post), indexLoop]
  · intro e
    simp only [Index, Update, key (StreamEvent.closed (some e) :: post), indexLoop]
  · simp only [Index, Update, key (StreamEvent.closed none :: post), indexLoop]
  · intro c h; cases h
  · intro m h; cases h

/-- C9 (witness): cancellation delivered first aborts with the cancellation
error; the identifier scheduled after it is never dequeued (its cid does not
even resolve in the store, yet no store error surfaces). -/
theorem c9_witness :
    Index [] DB.empty [.ctxDone, .recv "z"] = (some .cancelled, DB.empty) :=
  (c9_cancellation_and_termination [] DB.empty DB.empty [] [.recv "z"]
    (fun ev h => absurd h (List.not_mem_nil ev)) rfl).1

/-! C3: optional top-level sections. -/

/-- C3: within `indexERN`'s enumeration of the four top-level sections, a
section whose path resolution yields path-not-found is skipped and indexing
of the document continues with the remaining sections and unchanged state;
any other resolution error aborts `indexERN` with exactly that error. -/
theorem c3_section_skip_or_abort :
    ∀ (store : Store) (tx tx1 : DB) (ernObj : Object) (pre rest : List String)
      (field : String) (e : Err),
      sectionFields = pre ++ field :: rest →
      indexSections store ernObj tx pre = .ok tx1 →
      Graph.get store ernObj ["NewReleaseMessage", field] = .error e →
      (IsPathNotFound e = true →
        indexERN store tx ernObj = indexSections store ernObj tx1 rest)
      ∧ (IsPathNotFound e = false → indexERN store tx ernObj = .error e) := by
  intro store tx tx1 ernObj pre rest field e hdecomp hpre hget
  have key := indexSections_append_ok store ernObj pre tx tx1 hpre (field :: rest)
  constructor
  · intro hpnf
    show indexSections store ernObj tx sectionFields = _
    rw [hdecomp, key]
    simp only [indexSections, indexSection, hget, hpnf, if_true]
  · intro hpnf
    show indexSections store ernObj tx sectionFields = _
    rw [hdecomp, key]
    simp only [indexSections, indexSection, hget, hpnf, Bool.false_eq_true, if_false]

/-- C3 (witness): the absent MessageHeader section of the fixture document
is skipped and indexing continues with the remaining three sections. -/
theorem c3_witness :
    indexERN storeC3 DB.empty docC3 =
      indexSections storeC3 docC3 DB.empty ["WorkList", "ResourceList", "ReleaseList"] :=
  (c3_section_skip_or_abort storeC3 DB.empty DB.empty docC3 []
    ["WorkList", "ResourceList", "ReleaseList"] "MessageHeader"
    (.pathNotFound "MessageHeader") rfl rfl rfl).1 rfl

/-! C4: link-set normalization. -/

/-- C4: normalization maps a lone link to the one-element sequence of its
cid — agreeing with the normalization of the equivalent one-element sequence
— maps a sequence of links element-by-element preserving source order, and
turns any non-link element of a sequence into the fatal extraction error. -/
theorem c4_normalization (msg : String) :
    (∀ c, normalizeLinks msg (.link c) = .ok [c]
      ∧ normalizeLinks msg (.seq [.link c]) = .ok [c])
    ∧ (∀ cs, normalizeLinks msg (.seq (cs.map Value.link)) = .ok cs)
    ∧ (∀ xs x, x ∈ xs → (∀ c, x ≠ .link c) →
        normalizeLinks msg (.seq xs) = .error (.schemaErr msg)) := by
  refine ⟨fun c => ⟨rfl, rfl⟩, fun cs => ?_, fun xs x hx hnl => ?_⟩
  · simp only [normalizeLinks, collectLinks_map_link]
  · simp only [normalizeLinks, collectLinks_nonlink msg xs x hx hnl]

/-- C4 (witness): a sequence holding a link and then a non-link normalizes
to the fatal extraction error. -/
theorem c4_witness :
    normalizeLinks "invalid party type" (.seq [.link "a", .str "b"])
      = .error (.schemaErr "invalid party type") :=
  (c4_normalization "invalid party type").2.2 [.link "a", .str "b"] (.str "b")
    (by simp) (fun c h => nomatch h)

/-! C5: message-header cardinality. -/

/-- Every error `DecodeObj` produces is wrapped by its deferred handler. -/
theorem decodeObj_error_wrap :
    ∀ (store : Store) (obj : Object) (path : List String) (e : Err),
      DecodeObj store obj path = .error e → ∃ e0, e = .decodeWrap path e0 := by
  intro store obj path e h
  unfold DecodeObj at h
  split at h
  · injection h with h1; exact ⟨_, h1.symm⟩
  · split at h
    · injection h with h1; exact ⟨_, h1.symm⟩
    · split at h
      · injection h with h1; exact ⟨_, h1.symm⟩
      · exact absurd h (by simp)
  · injection h with h1; exact ⟨_, h1.symm⟩

/-- C5: given that both party-insertion passes succeed, `indexMessageHeader`
returns a cardinality error exactly when the number of normalized sender
identifiers or the number of normalized recipient identifiers differs from
one — so zero senders fail, two senders fail, and with exactly one sender
and one recipient the call proceeds past the cardinality checks (whatever
later happens, it is never a cardinality error). -/
theorem c5_cardinality :
    ∀ (store : Store) (tx tx1 tx2 : DB) (ernID : Cid) (obj : Object)
      (senders recipients : List Cid),
      insertParties store tx obj "MessageSender" = .ok (senders, tx1) →
      insertParties store tx1 obj "MessageRecipient" = .ok (recipients, tx2) →
      ((∃ w n, indexMessageHeader store tx ernID obj = .error (.cardinalityErr w n))
        ↔ ¬(senders.length = 1 ∧ recipients.length = 1)) := by
  intro store tx tx1 tx2 ernID obj senders recipients h1 h2
  unfold indexMessageHeader
  rw [h1]
  cases senders with
  | nil => exact iff_of_true ⟨"sender", 0, rfl⟩ (by simp)
  | cons s ss =>
    cases ss with
    | cons s2 ss2 => exact iff_of_true ⟨"sender", ss2.length + 2, rfl⟩ (by simp)
    | nil =>
      simp only []
      rw [h2]
      cases recipients with
      | nil => exact iff_of_true ⟨"recipient", 0, rfl⟩ (by simp)
      | cons r rs =>
        cases rs with
        | cons r2 rs2 => exact iff_of_true ⟨"recipient", rs2.length + 2, rfl⟩ (by simp)
        | nil =>
          apply iff_of_false ?_ (by simp)
          rintro ⟨w, n, hres⟩
          simp only [] at hres
          cases hd1 : DecodeObj store obj ["MessageId"] with
          | error e =>
            obtain ⟨e0, rfl⟩ := decodeObj_error_wrap _ _ _ _ hd1
            rw [hd1] at hres
            simp at hres
          | ok messageID =>
            rw [hd1] at hres
            simp only [] at hres
            cases hd2 : DecodeObj store obj ["MessageThreadId"] with
            | error e =>
              obtain ⟨e0, rfl⟩ := decodeObj_error_wrap _ _ _ _ hd2
              rw [hd2] at hres
              simp at hres
            | ok threadID =>
              rw [hd2] at hres
              simp only [] at hres
              cases hd3 : DecodeObj store obj ["MessageCreatedDateTime"] with
              | error e =>
                obtain ⟨e0, rfl⟩ := decodeObj_error_wrap _ _ _ _ hd3
                rw [hd3] at hres
                simp at hres
              | ok created =>
                rw [hd3] at hres
                simp only [] at hres
                unfold DB.insertErnRow at hres
                split at hres
                · injection hres with hx; exact Err.noConfusion hx
                · exact absurd hres (by simp)

/-- C5 (witness): the zero-sender fixture fails its message-header
extraction with a cardinality error. -/
theorem c5_witness :
    ∃ w n, indexMessageHeader [] DB.empty "e5" objMH5 = .error (.cardinalityErr w n) :=
  (c5_cardinality [] DB.empty DB.empty DB.empty "e5" objMH5 [] [] rfl rfl).mpr (by simp)

/-! C6: required titles versus optional identifiers. -/

/-- C6: a sound recording or release whose `ReferenceTitle` path is absent
fails extraction of the document with an error, and a party whose
`PartyName/FullName` fails to decode fails with exactly that error; whereas
the optional identifiers are tolerated: an absent `ISRC` (resp. `GRid`)
still leads — when the rest succeeds — to a row carrying the empty string in
the id column, and an absent `PartyId` inserts the party row with an empty
id. -/
theorem c6_required_and_optional_fields :
    (∀ (store : Store) (tx : DB) (ernID : Cid) (obj : Object) (e : Err),
      Graph.get store obj ["ReferenceTitle", "TitleText", "@value"] = .error e →
      IsPathNotFound e = true →
      ∃ e1, indexSoundRecording store tx ernID obj = .error e1)
    ∧ (∀ (store : Store) (tx : DB) (ernID : Cid) (obj : Object) (e : Err),
      Graph.get store obj ["ReferenceTitle", "TitleText", "@value"] = .error e →
      IsPathNotFound e = true →
      ∃ e1, indexRelease store tx ernID obj = .error e1)
    ∧ (∀ (store : Store) (tx : DB) (obj : Object) (e : Err),
      DecodeObj store obj ["PartyName", "FullName"] = .error e →
      insertParty store tx obj = .error e)
    ∧ (∀ (store : Store) (tx tx1 : DB) (ernID : Cid) (obj : Object) (e : Err),
      Graph.get store obj ["SoundRecordingId", "ISRC", "@value"] = .error e →
      indexSoundRecording store tx ernID obj = .ok tx1 →
      ∃ t, (⟨obj.cid, "", t⟩ : EntityRow) ∈ tx1.sound_recording)
    ∧ (∀ (store : Store) (tx tx1 : DB) (ernID : Cid) (obj : Object) (e : Err),
      Graph.get store obj ["ReleaseId", "GRid", "@value"] = .error e →
      indexRelease store tx ernID obj = .ok tx1 →
      ∃ t, (⟨obj.cid, "", t⟩ : EntityRow) ∈ tx1.release)
    ∧ (∀ (store : Store) (tx : DB) (obj : Object) (e : Err) (nm : String),
      DecodeObj store obj ["PartyId"] = .error e →
      DecodeObj store obj ["PartyName", "FullName"] = .ok nm →
      tx.party.any (fun x => x.cid == obj.cid) = false →
      insertParty store tx obj = .ok { tx with party := tx.party ++ [⟨obj.cid, "", nm⟩] }) := by
  refine ⟨?_, ?_, ?_, ?_, ?_, ?_⟩
  · intro store tx ernID obj e htitle hpnf
    unfold indexSoundRecording
    simp only [htitle, hpnf, if_true, beq_self_eq_true]
    repeat' split
    all_goals exact ⟨_, rfl⟩
  · intro store tx ernID obj e htitle hpnf
    unfold indexRelease
    simp only [htitle, hpnf, if_true, beq_self_eq_true]
    repeat' split
    all_goals exact ⟨_, rfl⟩
  · intro store tx obj e hname
    simp only [insertParty, hname]
  · intro store tx tx1 ernID obj e hisrc hok
    unfold indexSoundRecording at hok
    rw [hisrc] at hok
    simp only [] at hok
    cases h1 : obj.get "SoundRecordingDetailsByTerritory" with
    | error e1 => rw [h1] at hok; simp at hok
    | ok srCid =>
      rw [h1] at hok
      simp only [] at hok
      cases h2 : normalizeLinks "invalid resource type" srCid with
      | error e1 => rw [h2] at hok; simp at hok
      | ok cids =>
        rw [h2] at hok
        simp only [] at hok
        cases h3 : displayArtistLoop store tx cids with
        | error e1 => rw [h3] at hok; simp at hok
        | ok txa =>
          rw [h3] at hok
          simp only [] at hok
          cases h4 : Graph.get store obj ["ReferenceTitle", "TitleText", "@value"] with
          | error e1 =>
            rw [h4] at hok
            rcases Bool.eq_false_or_eq_true (IsPathNotFound e1) with hp | hp <;>
              simp [hp] at hok
          | ok tv =>
            rw [h4] at hok
            cases tv with
            | link c => simp at hok
            | seq l => simp at hok
            | map fs => simp at hok
            | str t =>
              simp only [] at hok
              by_cases ht : (t == "") = true
              · rw [if_pos ht] at hok; simp at hok
              · rw [if_neg ht] at hok
                cases h5 : txa.insertSoundRecordingRow ⟨obj.cid, "", t⟩ with
                | error e1 => rw [h5] at hok; simp at hok
                | ok tx2 =>
                  rw [h5] at hok
                  simp only [] at hok
                  cases h6 : tx2.insertResourceListRow ⟨ernID, obj.cid⟩ with
                  | error e1 => rw [h6] at hok; simp at hok
                  | ok tx3 =>
                    rw [h6] at hok
                    simp only [] at hok
                    injection hok with h7
                    subst h7
                    unfold DB.insertSoundRecordingRow at h5
                    split at h5
                    · simp at h5
                    · injection h5 with h8
                      unfold DB.insertResourceListRow at h6
                      split at h6
                      · simp at h6
                      · injection h6 with h9
                        refine ⟨t, ?_⟩
                        rw [← h9, ← h8]
                        simp
  · intro store tx tx1 ernID obj e hgrid hok
    unfold indexRelease at hok
    rw [hgrid] at hok
    simp only [] at hok
    cases h4 : Graph.get store obj ["ReferenceTitle", "TitleText", "@value"] with
    | error e1 =>
      rw [h4] at hok
      rcases Bool.eq_false_or_eq_true (IsPathNotFound e1) with hp | hp <;>
        simp [hp] at hok
    | ok tv =>
      rw [h4] at hok
      cases tv with
      | link c => simp at hok
      | seq l => simp at hok
      | map fs => simp at hok
      | str t =>
        simp only [] at hok
        by_cases ht : (t == "") = true
        · rw [if_pos ht] at hok; simp at hok
        · rw [if_neg ht] at hok
          cases h5 : tx.insertReleaseRow ⟨obj.cid, "", t⟩ with
          | error e1 => rw [h5] at hok; simp at hok
          | ok tx2 =>
            rw [h5] at hok
            simp only [] at hok
            unfold DB.insertReleaseListRow at hok
            split at hok
            · simp at hok
            · injection hok with h7
              unfold DB.insertReleaseRow at h5
              split at h5
              · simp at h5
              · injection h5 with h8
                refine ⟨t, ?_⟩
                rw [← h7, ← h8]
                simp
  · intro store tx obj e nm hid hname hfresh
    simp only [insertParty, hid, hname, DB.insertPartyRow, hfresh,
      Bool.false_eq_true, if_false]

/-- C6 (witness): the party fixture — absent `PartyId`, decodable name — is
inserted with an empty id column. -/
theorem c6_witness :
    insertParty storeP DB.empty objP
      = .ok { DB.empty with party := [⟨"pP", "", "Alice"⟩] } :=
  c6_required_and_optional_fields.2.2.2.2.2 storeP DB.empty objP
    (.decodeWrap ["PartyId"] (.pathNotFound "PartyId")) "Alice" rfl rfl rfl

/-! C7: store failures during extraction. -/

/-- C7 (counterexample): resolving the optional `SoundRecordingId/ISRC` path
of the fixture's sound recording fails with a store error — yet the `Index`
call over the fixture stream succeeds, committing the row with an empty id:
the store failure on the optional identifier path is swallowed instead of
propagating as the error of the `Index` call. -/
theorem c7_counterexample_store_failure_swallowed :
    Graph.get storeB objSrB ["SoundRecordingId", "ISRC", "@value"]
      = .error (.storeErr "sridB")
    ∧ Index storeB DB.empty [.recv "docB", .closed none]
      = (none, ⟨[], [⟨"srB", "", "SongB"⟩], [], [], [⟨"docB", "srB"⟩], []⟩) := by
  constructor
  · rfl
  · rfl

/-- C7 (amended): a store failure is fatal to the batch when dereferencing a
streamed root identifier; but a store failure while resolving the optional
identifier paths (`SoundRecordingId/ISRC`, `ReleaseId/GRid`) is swallowed —
the identifier defaults to the empty string and indexing of the sub-object
proceeds. -/
theorem c7_amended_store_failures :
    (∀ (store : Store) (db : DB) (c : Cid) (evs : List StreamEvent),
      Store.get store c = none →
      Index store db (.recv c :: evs) = (some (.storeErr c), db))
    ∧ (∀ (store : Store) (tx : DB) (ernID : Cid) (obj : Object) (c : Cid) (t : String),
      Graph.get store obj ["SoundRecordingId", "ISRC", "@value"] = .error (.storeErr c) →
      obj.get "SoundRecordingDetailsByTerritory" = .ok (.seq []) →
      Graph.get store obj ["ReferenceTitle", "TitleText", "@value"] = .ok (.str t) →
      (t == "") = false →
      tx.sound_recording.any (fun x => x.cid == obj.cid) = false →
      tx.resource_list.any (fun x => x.ernId == ernID && x.childId == obj.cid) = false →
      indexSoundRecording store tx ernID obj =
        .ok { tx with sound_recording := tx.sound_recording ++ [⟨obj.cid, "", t⟩],
                      resource_list := tx.resource_list ++ [⟨ernID, obj.cid⟩] })
    ∧ (∀ (store : Store) (tx : DB) (ernID : Cid) (obj : Object) (c : Cid) (t : String),
      Graph.get store obj ["ReleaseId", "GRid", "@value"] = .error (.storeErr c) →
      Graph.get store obj ["ReferenceTitle", "TitleText", "@value"] = .ok (.str t) →
      (t == "") = false →
      tx.release.any (fun x => x.cid == obj.cid) = false →
      tx.release_list.any (fun x => x.ernId == ernID && x.childId == obj.cid) = false →
      indexRelease store tx ernID obj =
        .ok { tx with release := tx.release ++ [⟨obj.cid, "", t⟩],
                      release_list := tx.release_list ++ [⟨ernID, obj.cid⟩] }) := by
  refine ⟨?_, ?_, ?_⟩
  · intro store db c evs hmiss
    simp only [Index, Update, indexLoop, hmiss]
  · intro store tx ernID obj c t hisrc hsr htitle ht hfresh1 hfresh2
    unfold indexSoundRecording
    rw [hisrc, hsr, htitle]
    simp only [normalizeLinks, collectLinks, displayArtistLoop, ht,
      Bool.false_eq_true, if_false, DB.insertSoundRecordingRow, hfresh1,
      DB.insertResourceListRow]
    simp [hfresh2]
  · intro store tx ernID obj c t hgrid htitle ht hfresh1 hfresh2
    unfold indexRelease
    rw [hgrid, htitle]
    simp only [ht, Bool.false_eq_true, if_false, DB.insertReleaseRow, hfresh1,
      DB.insertReleaseListRow]
    simp [hfresh2]

/-- C7 (amended, witness): at the fixture, the sound recording with the
dangling identifier link is indexed successfully with an empty id column. -/
theorem c7_amended_witness :
    indexSoundRecording storeB DB.empty "docB" objSrB
      = .ok { DB.empty with sound_recording := [⟨"srB", "", "SongB"⟩],
                            resource_list := [⟨"docB", "srB"⟩] } :=
  c7_amended_store_failures.2.1 storeB DB.empty "docB" objSrB "sridB" "SongB"
    rfl rfl rfl rfl rfl rfl

/-! C8: relationship fields of the wrong shape. -/

/-- C8 (counterexample): a relationship field holding a value of the wrong
shape (a scalar) does NOT fail extraction: the switch has no default case,
so the value normalizes to the empty link set and `indexResourceList`
succeeds without error and without indexing anything. -/
theorem c8_counterexample_wrong_shape_ignored :
    indexResourceList [] DB.empty "ern8" objRlScalar = .ok DB.empty
    ∧ ∀ e, indexResourceList [] DB.empty "ern8" objRlScalar ≠ .error e := by
  refine ⟨rfl, fun e h => ?_⟩
  rw [show indexResourceList [] DB.empty "ern8" objRlScalar = .ok DB.empty from rfl] at h
  exact Except.noConfusion h

/-- C8 (amended): only a sequence element that is not a link is a
schema-violation error; a relationship value that is neither a link nor a
sequence (a scalar or a nested mapping) is silently normalized to the empty
link set, indexing no children and raising no error. -/
theorem c8_amended_wrong_shape :
    (∀ (msg s : String), normalizeLinks msg (.str s) = .ok [])
    ∧ (∀ (msg : String) (fs : List (String × Value)), normalizeLinks msg (.map fs) = .ok [])
    ∧ (∀ (store : Store) (tx : DB) (ernID : Cid) (obj : Object) (s : String),
        obj.get "SoundRecording" = .ok (.str s) →
        indexResourceList store tx ernID obj = .ok tx)
    ∧ (∀ (store : Store) (tx : DB) (ernID : Cid) (obj : Object) (xs : List Value) (x : Value),
        obj.get "SoundRecording" = .ok (.seq xs) → x ∈ xs → (∀ c, x ≠ .link c) →
        indexResourceList store tx ernID obj
          = .error (.schemaErr "invalid resource type")) := by
  refine ⟨fun msg s => rfl, fun msg fs => rfl, ?_, ?_⟩
  · intro store tx ernID obj s hget
    simp only [indexResourceList, hget, normalizeLinks, soundRecordingLoop]
  · intro store tx ernID obj xs x hget hx hnl
    simp only [indexResourceList, hget, normalizeLinks,
      collectLinks_nonlink "invalid resource type" xs x hx hnl]

/-- C8 (amended, witness): a `SoundRecording` sequence containing a non-link
element fails with the schema-violation error. -/
theorem c8_amended_witness :
    indexResourceList [] DB.empty "e8" (⟨"rl8b", [("SoundRecording", .seq [.str "bad"])]⟩ : Object)
      = .error (.schemaErr "invalid resource type") :=
  c8_amended_wrong_shape.2.2.2 [] DB.empty "e8"
    ⟨"rl8b", [("SoundRecording", .seq [.str "bad"])]⟩ [.str "bad"] (.str "bad")
    rfl (by simp) (fun c h => nomatch h)

end ern

namespace migrate

/-! C10: the migration engine. -/

/-- Applying a list of migrations appends exactly that list to the applied
schema statements, in order. -/
theorem foldl_applyOne_applied :
    ∀ (l : List Migration) (d : MigDB),
      (l.foldl MigDB.applyOne d).applied = d.applied ++ l := by
  intro l
  induction l with
  | nil => intro d; simp
  | cons mg rest ih =>
    intro d
    simp only [List.foldl_cons, ih, MigDB.applyOne]
    simp

/-- The version after applying a list of migrations is the initial version or
the version of one of the applied migrations. -/
theorem foldl_applyOne_version_mem :
    ∀ (l : List Migration) (d : MigDB),
      (l.foldl MigDB.applyOne d).version = d.version ∨
      ∃ x ∈ l, (l.foldl MigDB.applyOne d).version = x.version := by
  intro l
  induction l with
  | nil => intro d; exact Or.inl rfl
  | cons mg rest ih =>
    intro d
    rcases ih (d.applyOne mg) with h | ⟨x, hx, h⟩
    · exact Or.inr ⟨mg, List.mem_cons_self _ _, h⟩
    · exact Or.inr ⟨x, List.mem_cons_of_mem _ hx, h⟩

/-- After applying a version-sorted list of migrations, the version metadata
bounds every applied migration's version. -/
theorem sorted_le_foldl_version :
    ∀ (l : List Migration) (d : MigDB), l.Sorted migLE →
      ∀ x ∈ l, x.version ≤ (l.foldl MigDB.applyOne d).version := by
  intro l
  induction l with
  | nil => intro d _ x hx; exact absurd hx (List.not_mem_nil x)
  | cons mg rest ih =>
    intro d hsorted x hx
    have hpair := List.pairwise_cons.mp hsorted
    rcases List.mem_cons.mp hx with heq | hmem
    · subst heq
      rcases foldl_applyOne_version_mem rest (d.applyOne x) with h | ⟨y, hy, h⟩
      · simp only [List.foldl_cons]; rw [h]; exact Nat.le_refl _
      · simp only [List.foldl_cons]; rw [h]; exact hpair.1 y hy
    · exact ih (d.applyOne mg) hpair.2 x hmem

/-- Membership in the pending list: exactly the defined migrations with a
version strictly above the current one. -/
theorem pending_mem (m : Migrations) (v : Nat) (mg : Migration) :
    mg ∈ m.pending v ↔ mg ∈ m.migrations ∧ v < mg.version := by
  unfold Migrations.pending
  rw [List.Perm.mem_iff (List.perm_insertionSort migLE _)]
  simp [List.mem_filter]

/-- The pending list is sorted by version. -/
theorem pending_sorted (m : Migrations) (v : Nat) : (m.pending v).Sorted migLE :=
  List.sorted_insertionSort migLE _

/-- After `up` applies the pending migrations, every defined migration's
version is bounded by the new version metadata. -/
theorem up_result_current (m : Migrations) (db : MigDB) :
    ∀ mg ∈ m.migrations,
      mg.version ≤ ((m.pending db.version).foldl MigDB.applyOne db).version := by
  intro mg hmg
  by_cases h : db.version < mg.version
  · exact sorted_le_foldl_version _ db (pending_sorted m db.version) mg
      ((pending_mem m db.version mg).mpr ⟨hmg, h⟩)
  · have h1 : mg.version ≤ db.version := Nat.le_of_not_lt h
    rcases foldl_applyOne_version_mem (m.pending db.version) db with h2 | ⟨x, hx, h2⟩
    · rw [h2]; exact h1
    · rw [h2]
      exact h1.trans (Nat.le_of_lt ((pending_mem m db.version x).mp hx).2)

/-- A database whose version bounds every defined migration has no pending
migrations. -/
theorem pending_nil_of_current (m : Migrations) (v : Nat)
    (h : ∀ mg ∈ m.migrations, mg.version ≤ v) : m.pending v = [] := by
  unfold Migrations.pending
  have hf : m.migrations.filter (fun mg => v < mg.version) = [] := by
    rw [List.filter_eq_nil_iff]
    intro a ha
    simp only [decide_eq_true_eq]
    exact Nat.not_lt.mpr (h a ha)
  rw [hf]
  rfl

/-- C10: `Run` returns no error and applies exactly the migrations with a
version strictly higher than the database's current version, in ascending
version order; calling `Run` again on the resulting database returns no
error and changes nothing; and `Run` on a database already at the highest
defined version is a no-op that surfaces no error. -/
theorem c10_migrations_run :
    ∀ (m : Migrations) (db : MigDB),
      (m.Run db).fst = none
      ∧ (m.Run db).snd.applied = db.applied ++ m.pending db.version
      ∧ (∀ mg ∈ m.pending db.version, db.version < mg.version)
      ∧ (m.pending db.version).Sorted migLE
      ∧ m.Run (m.Run db).snd = (none, (m.Run db).snd)
      ∧ ((∀ mg ∈ m.migrations, mg.version ≤ db.version) → m.Run db = (none, db)) := by
  intro m db
  have hsorted := pending_sorted m db.version
  have hgt : ∀ mg ∈ m.pending db.version, db.version < mg.version :=
    fun mg hmg => ((pending_mem m db.version mg).mp hmg).2
  by_cases hemp : (m.pending db.version).isEmpty = true
  · have hnil : m.pending db.version = [] := List.isEmpty_iff.mp hemp
    have hrun : m.Run db = (none, db) := by
      unfold Migrations.Run Migrations.up
      simp [hemp]
    refine ⟨by rw [hrun], by rw [hrun, hnil]; simp, hgt, hsorted, by simp [hrun],
      fun _ => hrun⟩
  · have hrun : m.Run db = (none, (m.pending db.version).foldl MigDB.applyOne db) := by
      unfold Migrations.Run Migrations.up
      simp [hemp]
    have hnil2 : m.pending ((m.pending db.version).foldl MigDB.applyOne db).version = [] :=
      pending_nil_of_current m _ (up_result_current m db)
    have hrun2 : m.Run ((m.pending db.version).foldl MigDB.applyOne db)
        = (none, (m.pending db.version).foldl MigDB.applyOne db) := by
      unfold Migrations.Run Migrations.up
      simp [hnil2]
    refine ⟨by rw [hrun], by rw [hrun]; exact foldl_applyOne_applied _ db, hgt, hsorted,
      by rw [hrun]; exact hrun2, fun h => ?_⟩
    exact absurd (by rw [pending_nil_of_current m db.version h]; rfl) hemp

/-- C10 (witness): running the fixture migration set against a database
already at its highest version is a no-op with no error. -/
theorem c10_witness : Migrations.Run m10 db10 = (none, db10) :=
  (c10_migrations_run m10 db10).2.2.2.2.2 (by decide)

end migrate
